import Mathlib

/-
Verification development for the andrea bytecode interpreter.

The interpreter (src/vm.rs) is embedded shallowly: the Rust `VM` struct
becomes a Lean structure, every `&mut self` method returning
`Result<T, VMError>` becomes an explicit state-passing function returning
`StepRes T`, which records the value and the mutated state on success and
on failure (Rust mutations performed before an `Err` return persist in the
caller-visible state, so errors carry the state too).  A Rust panic (the
`x / y` divide-by-zero trap in `i_div`) is a distinct `trap` outcome.
Unbounded loops are handled with a fuel parameter; `timeout` marks fuel
exhaustion and is an artifact of the embedding, not a program outcome.

The collector (src/heap.rs, src/value.rs) is embedded with the intrusive
singly-linked object list as a Lean list and raw object pointers as
integer object ids into an explicit store; `Cell<Color>` mutation becomes
functional update of the store.

Machine integers: `isize` is modelled as unbounded `Int` (no claim under
verification involves integer overflow); byte operands are `Fin 256`;
`usize` indices are `Nat`.
-/

namespace Andrea

/-- Value from src/vm.rs: tagged datum, either a signed integer (isize,
modelled as Int) or a boolean. -/
inductive Value where
  | Integer (i : Int)
  | Bool (b : Bool)
deriving DecidableEq

/-- VMError from src/vm.rs. -/
inductive VMError where
  | ArgumentError
  | ConstIndexError
  | IllegalGoto
  | StackEmpty
  | StackOverflow
  | TypeError
  | UnboundVariable
  | UnexpectedEOF
  | UnknownOpCode
deriving DecidableEq

/-- OpCode from src/vm.rs, discriminants 0..19. -/
inductive OpCode where
  | Return
  | Goto
  | GotoIf
  | Load
  | Load2
  | LoadConst
  | LoadLocal
  | StoreLocal
  | LoadGlobal
  | Call
  | IAdd
  | ISub
  | IMul
  | IDiv
  | INeg
  | ICmpEQ
  | ICmpGT
  | ICmpGE
  | ICmpLT
  | ICmpLE
deriving DecidableEq

/-- The IntEnum `try_into` conversion of a byte into an opcode; bytes
outside 0..19 have no opcode. -/
def OpCode.fromByte (b : Fin 256) : Option OpCode :=
  match b.val with
  | 0 => some OpCode.Return
  | 1 => some OpCode.Goto
  | 2 => some OpCode.GotoIf
  | 3 => some OpCode.Load
  | 4 => some OpCode.Load2
  | 5 => some OpCode.LoadConst
  | 6 => some OpCode.LoadLocal
  | 7 => some OpCode.StoreLocal
  | 8 => some OpCode.LoadGlobal
  | 9 => some OpCode.Call
  | 10 => some OpCode.IAdd
  | 11 => some OpCode.ISub
  | 12 => some OpCode.IMul
  | 13 => some OpCode.IDiv
  | 14 => some OpCode.INeg
  | 15 => some OpCode.ICmpEQ
  | 16 => some OpCode.ICmpGT
  | 17 => some OpCode.ICmpGE
  | 18 => some OpCode.ICmpLT
  | 19 => some OpCode.ICmpLE
  | _ => none

/-- combine_bytes from src/vm.rs: `(b1 as usize) << 8 | b2 as usize`. -/
def combine_bytes (b1 b2 : Fin 256) : Nat :=
  (b1.val <<< 8) ||| b2.val

/-- Function from src/vm.rs: arity plus instruction stream. -/
structure Function where
  argc : Nat
  chunk : List (Fin 256)
deriving DecidableEq

/-- MAX_STACK_SIZE from src/vm.rs. -/
def MAX_STACK_SIZE : Nat := 256

/-- VM from src/vm.rs.  The operand stack is a Lean list whose head is the
top of the stack (the end of the Rust `Vec`, where `push`/`pop` operate);
`constants`, `locals`, `globals` and `functions` are `Vec`s indexed from
the front, kept in the same order here. -/
structure VM where
  stack : List Value
  constants : List Value
  locals : List Value
  globals : List Value
  functions : List Function
  chunk : List (Fin 256)
  current : Nat
deriving DecidableEq

/-- Result of running a `&mut self` method returning `VMResult<T>`: value
and post-state on success, error and post-state on failure (Rust mutations
made before the `Err` return are visible), `trap` for a Rust panic, and
`timeout` for fuel exhaustion of the embedding. -/
inductive StepRes (α : Type) where
  | ok (a : α) (vm : VM)
  | err (e : VMError) (vm : VM)
  | trap (vm : VM)
  | timeout
deriving DecidableEq

/-- Sequencing of fallible steps: the Rust `?` operator with the mutated
state threaded through. -/
def StepRes.bind {α β : Type} : StepRes α → (α → VM → StepRes β) → StepRes β
  | StepRes.ok a vm, f => f a vm
  | StepRes.err e vm, _ => StepRes.err e vm
  | StepRes.trap vm, _ => StepRes.trap vm
  | StepRes.timeout, _ => StepRes.timeout

/-- VM::push. -/
def VM.push (vm : VM) (v : Value) : StepRes Unit :=
  if vm.stack.length ≥ MAX_STACK_SIZE then StepRes.err VMError.StackOverflow vm
  else StepRes.ok () { vm with stack := v :: vm.stack }

/-- VM::pop. -/
def VM.pop (vm : VM) : StepRes Value :=
  match vm.stack with
  | [] => StepRes.err VMError.StackEmpty vm
  | v :: rest => StepRes.ok v { vm with stack := rest }

/-- VM::advance: read the byte at `current` and step past it. -/
def VM.advance (vm : VM) : StepRes (Fin 256) :=
  match vm.chunk[vm.current]? with
  | none => StepRes.err VMError.UnexpectedEOF vm
  | some b => StepRes.ok b { vm with current := vm.current + 1 }

/-- VM::eof. -/
def VM.eof (vm : VM) : Bool :=
  decide (vm.current ≥ vm.chunk.length)

/-- VM::expect_integer. -/
def VM.expect_integer (vm : VM) : StepRes Int :=
  StepRes.bind vm.pop fun v vm =>
    match v with
    | Value.Integer i => StepRes.ok i vm
    | _ => StepRes.err VMError.TypeError vm

/-- VM::expect_bool. -/
def VM.expect_bool (vm : VM) : StepRes Bool :=
  StepRes.bind vm.pop fun v vm =>
    match v with
    | Value.Bool p => StepRes.ok p vm
    | _ => StepRes.err VMError.TypeError vm

/-- VM::ret: forces the instruction pointer to end-of-stream. -/
def VM.ret (vm : VM) : StepRes Unit :=
  StepRes.ok () { vm with current := vm.chunk.length }

/-- VM::goto: decode a 2-byte big-endian target; a target `>= chunk.len()`
is IllegalGoto, otherwise the instruction pointer is set to it. -/
def VM.goto (vm : VM) : StepRes Unit :=
  StepRes.bind vm.advance fun b1 vm =>
  StepRes.bind vm.advance fun b2 vm =>
  let index := combine_bytes b1 b2
  if index ≥ vm.chunk.length then StepRes.err VMError.IllegalGoto vm
  else StepRes.ok () { vm with current := index }

/-- VM::goto_if: pop a boolean condition, decode the 2-byte target, and
jump only when the condition is true (the bounds check also runs only
then). -/
def VM.goto_if (vm : VM) : StepRes Unit :=
  StepRes.bind vm.expect_bool fun p vm =>
  StepRes.bind vm.advance fun b1 vm =>
  StepRes.bind vm.advance fun b2 vm =>
  let index := combine_bytes b1 b2
  if p then
    if index ≥ vm.chunk.length then StepRes.err VMError.IllegalGoto vm
    else StepRes.ok () { vm with current := index }
  else StepRes.ok () vm

/-- VM::load: 1-byte immediate integer. -/
def VM.load (vm : VM) : StepRes Unit :=
  StepRes.bind vm.advance fun b vm =>
  vm.push (Value.Integer (Int.ofNat b.val))

/-- VM::load2: 2-byte big-endian immediate integer. -/
def VM.load2 (vm : VM) : StepRes Unit :=
  StepRes.bind vm.advance fun b1 vm =>
  StepRes.bind vm.advance fun b2 vm =>
  vm.push (Value.Integer (Int.ofNat (combine_bytes b1 b2)))

/-- VM::load_const. -/
def VM.load_const (vm : VM) : StepRes Unit :=
  StepRes.bind vm.advance fun b vm =>
  match vm.constants[b.val]? with
  | none => StepRes.err VMError.ConstIndexError vm
  | some c => vm.push c

/-- VM::load_local. -/
def VM.load_local (vm : VM) : StepRes Unit :=
  StepRes.bind vm.advance fun b1 vm =>
  StepRes.bind vm.advance fun b2 vm =>
  match vm.locals[combine_bytes b1 b2]? with
  | none => StepRes.err VMError.UnboundVariable vm
  | some v => vm.push v

/-- VM::store_local: `if self.locals.get(index).is_some()` overwrite the
slot, else push the value at the end of the locals vector. -/
def VM.store_local (vm : VM) : StepRes Unit :=
  StepRes.bind vm.advance fun b1 vm =>
  StepRes.bind vm.advance fun b2 vm =>
  let index := combine_bytes b1 b2
  StepRes.bind vm.pop fun value vm =>
  if (vm.locals[index]?).isSome then
    StepRes.ok () { vm with locals := vm.locals.set index value }
  else
    StepRes.ok () { vm with locals := vm.locals ++ [value] }

/-- VM::load_global. -/
def VM.load_global (vm : VM) : StepRes Unit :=
  StepRes.bind vm.advance fun b1 vm =>
  StepRes.bind vm.advance fun b2 vm =>
  match vm.globals[combine_bytes b1 b2]? with
  | none => StepRes.err VMError.UnboundVariable vm
  | some v => vm.push v

/-- VM::i_add. -/
def VM.i_add (vm : VM) : StepRes Unit :=
  StepRes.bind vm.expect_integer fun x vm =>
  StepRes.bind vm.expect_integer fun y vm =>
  vm.push (Value.Integer (x + y))

/-- VM::i_sub. -/
def VM.i_sub (vm : VM) : StepRes Unit :=
  StepRes.bind vm.expect_integer fun x vm =>
  StepRes.bind vm.expect_integer fun y vm =>
  vm.push (Value.Integer (x - y))

/-- VM::i_mul. -/
def VM.i_mul (vm : VM) : StepRes Unit :=
  StepRes.bind vm.expect_integer fun x vm =>
  StepRes.bind vm.expect_integer fun y vm =>
  vm.push (Value.Integer (x * y))

/-- VM::i_div: Rust `x / y` on isize.  A zero divisor makes Rust panic
(`attempt to divide by zero`), modelled as `trap`; otherwise the quotient
truncates toward zero (`Int.tdiv`).  (The `isize::MIN / -1` overflow panic
has no counterpart here because isize is modelled as unbounded Int.) -/
def VM.i_div (vm : VM) : StepRes Unit :=
  StepRes.bind vm.expect_integer fun x vm =>
  StepRes.bind vm.expect_integer fun y vm =>
  if y = 0 then StepRes.trap vm
  else vm.push (Value.Integer (Int.tdiv x y))

/-- VM::i_neg. -/
def VM.i_neg (vm : VM) : StepRes Unit :=
  StepRes.bind vm.expect_integer fun x vm =>
  vm.push (Value.Integer (-x))

/-- VM::i_cmpeq. -/
def VM.i_cmpeq (vm : VM) : StepRes Unit :=
  StepRes.bind vm.expect_integer fun x vm =>
  StepRes.bind vm.expect_integer fun y vm =>
  vm.push (Value.Bool (decide (x = y)))

/-- VM::i_cmpgt. -/
def VM.i_cmpgt (vm : VM) : StepRes Unit :=
  StepRes.bind vm.expect_integer fun x vm =>
  StepRes.bind vm.expect_integer fun y vm =>
  vm.push (Value.Bool (decide (x > y)))

/-- VM::i_cmpge. -/
def VM.i_cmpge (vm : VM) : StepRes Unit :=
  StepRes.bind vm.expect_integer fun x vm =>
  StepRes.bind vm.expect_integer fun y vm =>
  vm.push (Value.Bool (decide (x ≥ y)))

/-- VM::i_cmplt. -/
def VM.i_cmplt (vm : VM) : StepRes Unit :=
  StepRes.bind vm.expect_integer fun x vm =>
  StepRes.bind vm.expect_integer fun y vm =>
  vm.push (Value.Bool (decide (x < y)))

/-- VM::i_cmple. -/
def VM.i_cmple (vm : VM) : StepRes Unit :=
  StepRes.bind vm.expect_integer fun x vm =>
  StepRes.bind vm.expect_integer fun y vm =>
  vm.push (Value.Bool (decide (x ≤ y)))

/-- The `0..func.argc` pop loop of VM::call: pops `n` values off the
caller's stack, listed in pop order (most recently pushed first). -/
def VM.popN : Nat → VM → StepRes (List Value)
  | 0, vm => StepRes.ok [] vm
  | Nat.succ n, vm =>
    StepRes.bind vm.pop fun v vm =>
    StepRes.bind (VM.popN n vm) fun vs vm =>
    StepRes.ok (v :: vs) vm

/-- The tail of VM::call after the fork has been built and the arguments
popped: `fork.execute_all()?; self.push(fork.pop()?)`.  `r` is the fork's
run result, `vm` the caller's state; the fork is dropped, so every
caller-visible state is `vm` (or `vm` plus the pushed result). -/
def callFinish (r : StepRes Unit) (vm : VM) : StepRes Unit :=
  match r with
  | StepRes.ok _ fork =>
    match fork.pop with
    | StepRes.ok v _ => vm.push v
    | StepRes.err e _ => StepRes.err e vm
    | StepRes.trap _ => StepRes.trap vm
    | StepRes.timeout => StepRes.timeout
  | StepRes.err e _ => StepRes.err e vm
  | StepRes.trap _ => StepRes.trap vm
  | StepRes.timeout => StepRes.timeout

/-- VM::call with the runner of the child interpreter abstracted out
(`runAll` stands for `fork.execute_all()`; it is instantiated with
`VM.execute_all fuel` below).  The fork is `self.clone()` taken before the
argument pops (so its stack is the caller's entire stack), with the
instruction pointer reset, the callee's chunk installed, the caller's
locals adopted as globals, and the popped arguments as locals. -/
def VM.callWith (runAll : VM → StepRes Unit) (vm : VM) : StepRes Unit :=
  StepRes.bind vm.advance fun b vm =>
  match vm.functions[b.val]? with
  | none => StepRes.err VMError.UnboundVariable vm
  | some func =>
    let fork := { vm with current := 0, chunk := func.chunk, globals := vm.locals }
    StepRes.bind (VM.popN func.argc vm) fun params vm =>
    callFinish (runAll { fork with locals := params }) vm

/-- VM::execute with the child runner abstracted (see VM.callWith): decode
one opcode byte and dispatch. -/
def VM.executeWith (runAll : VM → StepRes Unit) (vm : VM) : StepRes Unit :=
  StepRes.bind vm.advance fun b vm =>
  match OpCode.fromByte b with
  | none => StepRes.err VMError.UnknownOpCode vm
  | some op =>
    match op with
    | OpCode.Return => vm.ret
    | OpCode.Goto => vm.goto
    | OpCode.GotoIf => vm.goto_if
    | OpCode.Load => vm.load
    | OpCode.Load2 => vm.load2
    | OpCode.LoadConst => vm.load_const
    | OpCode.LoadLocal => vm.load_local
    | OpCode.StoreLocal => vm.store_local
    | OpCode.LoadGlobal => vm.load_global
    | OpCode.Call => VM.callWith runAll vm
    | OpCode.IAdd => vm.i_add
    | OpCode.ISub => vm.i_sub
    | OpCode.IMul => vm.i_mul
    | OpCode.IDiv => vm.i_div
    | OpCode.INeg => vm.i_neg
    | OpCode.ICmpEQ => vm.i_cmpeq
    | OpCode.ICmpGT => vm.i_cmpgt
    | OpCode.ICmpGE => vm.i_cmpge
    | OpCode.ICmpLT => vm.i_cmplt
    | OpCode.ICmpLE => vm.i_cmple

/-- VM::execute_all: the dispatch loop, with fuel.  Each iteration and
each nested call spends fuel; `timeout` reports exhaustion. -/
def VM.execute_all : Nat → VM → StepRes Unit
  | 0, _ => StepRes.timeout
  | Nat.succ fuel, vm =>
    if vm.eof then StepRes.ok () vm
    else
      StepRes.bind (VM.executeWith (fun vmC => VM.execute_all fuel vmC) vm) fun _ vmN =>
        VM.execute_all fuel vmN

/-- VM::execute: one dispatch step; a nested call runs its child with the
given fuel. -/
def VM.execute (fuel : Nat) (vm : VM) : StepRes Unit :=
  VM.executeWith (fun vmC => VM.execute_all fuel vmC) vm

/-- VM::call instantiated with the real child runner. -/
def VM.call (fuel : Nat) (vm : VM) : StepRes Unit :=
  VM.callWith (fun vmC => VM.execute_all fuel vmC) vm

namespace GC

/-- Color from src/heap.rs. -/
inductive Color where
  | Unmarked
  | Reachable
deriving DecidableEq

/-- Value from src/value.rs.  `Char`, `Integer` (i64), `Word` (u64) and
`Float` (f64) carry no structure the collector inspects; the f64 payload
is not modelled (no verified claim touches it).  An `ObjectPtr` raw
pointer is modelled as an integer object id into an explicit store. -/
inductive Value where
  | Char (c : Char)
  | Integer (i : Int)
  | Word (w : Nat)
  | Float
  | ObjectPtr (id : Nat)
deriving DecidableEq

/-- Value::get_object_ptr. -/
def Value.get_object_ptr : Value → Option Nat
  | Value.ObjectPtr id => some id
  | _ => none

/-- Object from src/heap.rs: tag byte plus field values. -/
structure Object where
  tag : Fin 256
  fields : List Value
deriving DecidableEq

/-- HeapObject from src/heap.rs: mark color (a `Cell`, modelled by
functional update) and payload.  The intrusive `next` pointer is
represented by the position in the collector's object list. -/
structure HeapObject where
  color : Color
  data : Object
deriving DecidableEq

/-- HeapObject::reachable. -/
def HeapObject.reachable (o : HeapObject) : Bool :=
  decide (o.color = Color.Reachable)

/-- HeapObject::unmark. -/
def HeapObject.unmark (o : HeapObject) : HeapObject :=
  { o with color := Color.Unmarked }

/-- Heap from src/heap.rs: the `head` pointer chain is the list of
objects in link order. -/
structure Heap where
  objects : List HeapObject
  size : Nat
  threshold : Nat
deriving DecidableEq

/-- HEAP_THRESHOLD from src/heap.rs. -/
def HEAP_THRESHOLD : Nat := 1024

/-- Heap::new / Default: empty list, size 0, initial threshold. -/
def Heap.new : Heap :=
  { objects := [], size := 0, threshold := HEAP_THRESHOLD }

/-- Heap::is_full. -/
def Heap.is_full (h : Heap) : Bool :=
  decide (h.size ≥ h.threshold)

/-- The walk of Heap::sweep over the object list: a Reachable object is
reset to Unmarked and kept linked; an Unmarked object is unlinked and
freed.  Returns the surviving list and the number of freed objects (the
source decrements `self.size` once per freed object). -/
def sweepWalk : List HeapObject → List HeapObject × Nat
  | [] => ([], 0)
  | o :: rest =>
    let r := sweepWalk rest
    if o.reachable then (o.unmark :: r.1, r.2)
    else (r.1, r.2 + 1)

/-- Heap::sweep: walk the list, then set
`self.threshold = self.size * 2` (`self.size` has been decremented once
per freed object; Nat subtraction stands for the usize subtraction, which
cannot underflow while `size` counts the linked objects). -/
def Heap.sweep (h : Heap) : Heap :=
  let r := sweepWalk h.objects
  { objects := r.1, size := h.size - r.2, threshold := (h.size - r.2) * 2 }

/-- The field-iteration loop of HeapObject::mark, with the recursive
`ptr.mark()` call abstracted as `markOne`: for each field holding an
object pointer, mark that object (threading the mutated store). -/
def markFieldsWith (markOne : Nat → List HeapObject → Option (List HeapObject)) :
    List Value → List HeapObject → Option (List HeapObject)
  | [], store => some store
  | f :: rest, store =>
    match f.get_object_ptr with
    | some j =>
      match markOne j store with
      | none => none
      | some store2 => markFieldsWith markOne rest store2
    | none => markFieldsWith markOne rest store

/-- HeapObject::mark from src/heap.rs, over an explicit object store
(`Cell` mutation becomes store update) and with a fuel bound: set the
object's color to Reachable, then recurse into every object-pointer
field — with NO check of the current color before descending (this is
exactly what the source does).  `none` means the fuel was exhausted, i.e.
the recursion of the source did not complete within `fuel` nested calls;
a dangling id (impossible in the source, where the pointer is always
valid) is a no-op. -/
def markObj : Nat → Nat → List HeapObject → Option (List HeapObject)
  | 0, _, _ => none
  | Nat.succ fuel, i, store =>
    match store[i]? with
    | none => some store
    | some o =>
      let store2 := store.set i { o with color := Color.Reachable }
      markFieldsWith (fun j s => markObj fuel j s) o.data.fields store2

/-- A heap object whose single field is a pointer to itself (object id 0
in a one-object store): the smallest cyclic object graph. -/
def selfLoopObj (c : Color) : HeapObject :=
  { color := c, data := { tag := 0, fields := [Value.ObjectPtr 0] } }

/-- C5 counterexample input: a heap holding one Unmarked object. -/
def exC5 : Heap :=
  { objects := [{ color := Color.Unmarked, data := { tag := 0, fields := [] } }],
    size := 1, threshold := HEAP_THRESHOLD }

/-- C5 witness input: three objects with mixed colors. -/
def wC5 : Heap :=
  { objects :=
      [{ color := Color.Reachable, data := { tag := 1, fields := [] } },
       { color := Color.Unmarked, data := { tag := 2, fields := [Value.Integer 7] } },
       { color := Color.Reachable, data := { tag := 3, fields := [Value.ObjectPtr 0] } }],
    size := 3, threshold := 6 }

end GC

/-- Fields of the interpreter state that a dispatch step never writes:
constant pool, function table, captured/global slots, and the
instruction stream. -/
def framePreserved (vm vmN : VM) : Prop :=
  vmN.constants = vm.constants ∧ vmN.functions = vm.functions ∧
  vmN.globals = vm.globals ∧ vmN.chunk = vm.chunk

/-- A step result whose every caller-visible post-state (success, error
or trap) preserves the frame of `vm`. -/
def preservesFrame {α : Type} (r : StepRes α) (vm : VM) : Prop :=
  match r with
  | StepRes.ok _ vmN => framePreserved vm vmN
  | StepRes.err _ vmN => framePreserved vm vmN
  | StepRes.trap vmN => framePreserved vm vmN
  | StepRes.timeout => True

/-- C1 counterexample input: empty locals, `StoreLocal 5` (opcode byte 7,
2-byte index 5, so the index is strictly beyond the append position 0). -/
def exC1 : VM :=
  { stack := [Value.Integer 42], constants := [], locals := [], globals := [],
    functions := [], chunk := [7, 0, 5], current := 0 }

/-- C1 witness input (overwrite case): store index 1 with two locals. -/
def wC1a : VM :=
  { stack := [Value.Integer 5], constants := [],
    locals := [Value.Integer 1, Value.Integer 2], globals := [],
    functions := [], chunk := [0, 1], current := 0 }

/-- C1 witness input (append case): store index 1 with one local. -/
def wC1b : VM :=
  { stack := [Value.Integer 9], constants := [], locals := [Value.Integer 1],
    globals := [], functions := [], chunk := [0, 1], current := 0 }

/-- C2 counterexample input: `Goto 3` in a 3-byte stream (target equal to
the stream length). -/
def exC2 : VM :=
  { stack := [], constants := [], locals := [], globals := [],
    functions := [], chunk := [1, 0, 3], current := 0 }

/-- C2 witness input (in-range Goto): target 1 in a 3-byte stream. -/
def wC2a : VM :=
  { stack := [], constants := [], locals := [], globals := [],
    functions := [], chunk := [0, 1, 0], current := 0 }

/-- C2 witness input (GotoIf, true condition, in-range target). -/
def wC2c : VM :=
  { stack := [Value.Bool true], constants := [], locals := [], globals := [],
    functions := [], chunk := [0, 1, 0], current := 0 }

/-- C2 witness input (boundary Goto): target 2 in a 2-byte stream. -/
def wC2b : VM :=
  { stack := [], constants := [], locals := [], globals := [],
    functions := [], chunk := [0, 2], current := 0 }

/-- C3 counterexample input: `GotoIf 0xFFFF` with a false condition in a
3-byte stream. -/
def exC3 : VM :=
  { stack := [Value.Bool false], constants := [], locals := [], globals := [],
    functions := [], chunk := [2, 255, 255], current := 0 }

/-- C3 witness input (Goto, out-of-range target, untouched stack). -/
def wC3c : VM :=
  { stack := [Value.Integer 3], constants := [], locals := [], globals := [],
    functions := [], chunk := [255, 255], current := 0 }

/-- C3 witness input (GotoIf, true condition, out-of-range target). -/
def wC3a : VM :=
  { stack := [Value.Bool true], constants := [], locals := [], globals := [],
    functions := [], chunk := [255, 255], current := 0 }

/-- C3 witness input (GotoIf, false condition, out-of-range target). -/
def wC3b : VM :=
  { stack := [Value.Bool false], constants := [], locals := [], globals := [],
    functions := [], chunk := [255, 255], current := 0 }

/-- C6 counterexample input: `Call 0` of an arity-0 function with an
empty body while the caller's stack is full (256 entries). -/
def exC6 : VM :=
  { stack := List.replicate 256 (Value.Integer 1), constants := [], locals := [],
    globals := [], functions := [{ argc := 0, chunk := [] }],
    chunk := [9, 0], current := 0 }

/-- C6 witness input: call of an arity-1 function with an empty body. -/
def wC6 : VM :=
  { stack := [Value.Integer 7], constants := [], locals := [Value.Integer 3],
    globals := [], functions := [{ argc := 1, chunk := [] }],
    chunk := [0], current := 0 }

/-- C7 counterexample input: `IDiv` with dividend 1 on top of divisor 0. -/
def exC7 : VM :=
  { stack := [Value.Integer 1, Value.Integer 0], constants := [], locals := [],
    globals := [], functions := [], chunk := [13], current := 0 }

/-- C7 witness input: divide with divisor 0 below the top of the stack. -/
def wC7 : VM :=
  { stack := [Value.Integer 5, Value.Integer 0, Value.Integer 9], constants := [],
    locals := [], globals := [], functions := [], chunk := [], current := 0 }

/-- C8 witness input: a full operand stack (256 entries). -/
def wC8full : VM :=
  { stack := List.replicate 256 (Value.Integer 0), constants := [], locals := [],
    globals := [], functions := [], chunk := [], current := 0 }

/-- C8 witness input: an operand stack below capacity. -/
def wC8small : VM :=
  { stack := [Value.Integer 4], constants := [], locals := [], globals := [],
    functions := [], chunk := [], current := 0 }

/-- C9 witness input: call of an arity-1 function with an empty body (the
child halts at once, its stack still the caller's full copy). -/
def wC9 : VM :=
  { stack := [Value.Integer 7], constants := [], locals := [Value.Integer 3],
    globals := [], functions := [{ argc := 1, chunk := [] }],
    chunk := [0], current := 0 }

theorem StepRes.bind_ok {α β : Type} (a : α) (vm : VM) (f : α → VM → StepRes β) :
    StepRes.bind (StepRes.ok a vm) f = f a vm := rfl

theorem StepRes.bind_err {α β : Type} (e : VMError) (vm : VM) (f : α → VM → StepRes β) :
    StepRes.bind (StepRes.err e vm) f = StepRes.err e vm := rfl

theorem getElem?_isSome_iff {α : Type} (l : List α) (i : Nat) :
    (l[i]?).isSome = true ↔ i < l.length := by
  rcases Nat.lt_or_ge i l.length with h | h
  · simp [List.getElem?_eq_getElem h, h]
  · simp [List.getElem?_eq_none h, Nat.not_lt.mpr h]

theorem advance_ok (vm : VM) (b : Fin 256) (h : vm.chunk[vm.current]? = some b) :
    vm.advance = StepRes.ok b { vm with current := vm.current + 1 } := by
  unfold VM.advance
  rw [h]

theorem pop_cons (vm : VM) (v : Value) (rest : List Value) (h : vm.stack = v :: rest) :
    vm.pop = StepRes.ok v { vm with stack := rest } := by
  unfold VM.pop
  rw [h]

theorem expect_bool_cons (vm : VM) (p : Bool) (rest : List Value)
    (h : vm.stack = Value.Bool p :: rest) :
    vm.expect_bool = StepRes.ok p { vm with stack := rest } := by
  unfold VM.expect_bool
  rw [pop_cons vm _ rest h, StepRes.bind_ok]

theorem expect_integer_cons (vm : VM) (i : Int) (rest : List Value)
    (h : vm.stack = Value.Integer i :: rest) :
    vm.expect_integer = StepRes.ok i { vm with stack := rest } := by
  unfold VM.expect_integer
  rw [pop_cons vm _ rest h, StepRes.bind_ok]

/-- Unfolding of VM::goto once the two operand bytes are known. -/
theorem goto_eq (vm : VM) (b1 b2 : Fin 256)
    (h1 : vm.chunk[vm.current]? = some b1)
    (h2 : vm.chunk[vm.current + 1]? = some b2) :
    vm.goto =
      if combine_bytes b1 b2 ≥ vm.chunk.length
      then StepRes.err VMError.IllegalGoto { vm with current := vm.current + 2 }
      else StepRes.ok () { vm with current := combine_bytes b1 b2 } := by
  unfold VM.goto
  rw [advance_ok vm b1 h1, StepRes.bind_ok, advance_ok _ b2 h2, StepRes.bind_ok]

/-- Unfolding of VM::goto_if once the condition and operand bytes are
known: the condition is popped unconditionally; the target is validated
(and taken) only when the condition is true. -/
theorem goto_if_eq (vm : VM) (p : Bool) (rest : List Value) (b1 b2 : Fin 256)
    (hs : vm.stack = Value.Bool p :: rest)
    (h1 : vm.chunk[vm.current]? = some b1)
    (h2 : vm.chunk[vm.current + 1]? = some b2) :
    vm.goto_if =
      if p then
        if combine_bytes b1 b2 ≥ vm.chunk.length
        then StepRes.err VMError.IllegalGoto { vm with stack := rest, current := vm.current + 2 }
        else StepRes.ok () { vm with stack := rest, current := combine_bytes b1 b2 }
      else StepRes.ok () { vm with stack := rest, current := vm.current + 2 } := by
  unfold VM.goto_if
  rw [expect_bool_cons vm p rest hs, StepRes.bind_ok,
    advance_ok { vm with stack := rest } b1 h1, StepRes.bind_ok,
    advance_ok _ b2 h2, StepRes.bind_ok]

/-- C1: claimed behavior of StoreLocal is append at `i == n`, overwrite at
`i < n`, UnboundVariable at `i > n`.  Counterexample to the last part: with
no locals at all, a store at index 5 succeeds and appends the popped value
as slot 0 — the source's `if self.locals.get(index).is_some()` treats every
out-of-bounds index as an append, and StoreLocal never reports
UnboundVariable. -/
theorem C1_store_beyond_append_counterexample :
    VM.execute 1 exC1 =
      StepRes.ok () { exC1 with stack := [], locals := [Value.Integer 42], current := 3 } := by
  decide

/-- C1 (amended): a StoreLocal whose decoded index is below the local
count overwrites that slot; any other index (equal to the count or
beyond) appends the popped value at the end of the locals sequence; the
instruction never fails with UnboundVariable. -/
theorem C1_store_local_overwrite_or_append (vm : VM) (b1 b2 : Fin 256)
    (v : Value) (rest : List Value)
    (h1 : vm.chunk[vm.current]? = some b1)
    (h2 : vm.chunk[vm.current + 1]? = some b2)
    (hs : vm.stack = v :: rest) :
    vm.store_local =
      StepRes.ok ()
        { vm with
          stack := rest
          current := vm.current + 2
          locals :=
            if combine_bytes b1 b2 < vm.locals.length
            then vm.locals.set (combine_bytes b1 b2) v
            else vm.locals ++ [v] } := by
  unfold VM.store_local
  rw [advance_ok vm b1 h1, StepRes.bind_ok, advance_ok _ b2 h2, StepRes.bind_ok,
    pop_cons { vm with current := vm.current + 1 + 1 } v rest hs, StepRes.bind_ok]
  by_cases h : combine_bytes b1 b2 < vm.locals.length
  all_goals simp [h, getElem?_isSome_iff]

theorem C1_store_local_witness :
    VM.store_local wC1a =
      StepRes.ok ()
        { wC1a with
          stack := []
          locals := [Value.Integer 1, Value.Integer 5]
          current := 2 } ∧
    VM.store_local wC1b =
      StepRes.ok ()
        { wC1b with
          stack := []
          locals := [Value.Integer 1, Value.Integer 9]
          current := 2 } := by
  constructor
  · rw [C1_store_local_overwrite_or_append wC1a 0 1 (Value.Integer 5) [] rfl rfl rfl]
    decide
  · rw [C1_store_local_overwrite_or_append wC1b 0 1 (Value.Integer 9) [] rfl rfl rfl]
    decide

/-- C2: the claim makes a jump target equal to the stream length legal
(immediate halt).  Counterexample: `Goto 3` in a stream of length 3 fails
with IllegalGoto — the source rejects `index >= self.chunk.len()`, so the
stream length itself is an illegal target. -/
theorem C2_goto_to_length_counterexample :
    VM.execute 1 exC2 = StepRes.err VMError.IllegalGoto { exC2 with current := 3 } := by
  decide

/-- C2 (amended): a jump (Goto, or GotoIf with a true popped condition)
whose decoded target `t` satisfies `t < stream length` succeeds and sets
the instruction pointer exactly to `t`; the target `t = stream length` is
not legal — it fails with IllegalGoto like every larger target. -/
theorem C2_goto_in_range (vm : VM) (b1 b2 : Fin 256)
    (h1 : vm.chunk[vm.current]? = some b1)
    (h2 : vm.chunk[vm.current + 1]? = some b2) :
    (combine_bytes b1 b2 < vm.chunk.length →
      vm.goto = StepRes.ok () { vm with current := combine_bytes b1 b2 } ∧
      ∀ rest, vm.stack = Value.Bool true :: rest →
        vm.goto_if = StepRes.ok () { vm with stack := rest, current := combine_bytes b1 b2 }) ∧
    (combine_bytes b1 b2 = vm.chunk.length →
      vm.goto = StepRes.err VMError.IllegalGoto { vm with current := vm.current + 2 }) := by
  constructor
  · intro hlt
    constructor
    · rw [goto_eq vm b1 b2 h1 h2, if_neg (Nat.not_le.mpr hlt)]
    · intro rest hs
      rw [goto_if_eq vm true rest b1 b2 hs h1 h2, if_pos rfl, if_neg (Nat.not_le.mpr hlt)]
  · intro heq
    rw [goto_eq vm b1 b2 h1 h2, if_pos (Nat.le_of_eq heq.symm)]

theorem C2_goto_in_range_witness :
    VM.goto wC2a = StepRes.ok () { wC2a with current := 1 } ∧
    VM.goto_if wC2c = StepRes.ok () { wC2c with stack := [], current := 1 } ∧
    VM.goto wC2b = StepRes.err VMError.IllegalGoto { wC2b with current := 2 } := by
  refine ⟨((C2_goto_in_range wC2a 0 1 rfl rfl).1 (by decide)).1, ?_, ?_⟩
  · exact ((C2_goto_in_range wC2c 0 1 rfl rfl).1 (by decide)).2 [] rfl
  · exact (C2_goto_in_range wC2b 0 2 rfl rfl).2 (by decide)

/-- C3: the claim says every out-of-range target fails with IllegalGoto
with the pre-jump operand stack intact, even for GotoIf.  Counterexample:
`GotoIf 0xFFFF` with a false condition in a 3-byte stream succeeds (no
IllegalGoto at all) and the popped condition is gone from the stack. -/
theorem C3_goto_if_false_counterexample :
    VM.execute 1 exC3 = StepRes.ok () { exC3 with stack := [], current := 3 } := by
  decide

/-- C3 (amended): for Goto, every target `>= stream length` fails with
IllegalGoto and leaves the operand stack unchanged.  For GotoIf the
condition is popped first and is not restored: with a true condition an
out-of-range target fails with IllegalGoto but the stack has lost the
condition value; with a false condition the instruction succeeds without
any bounds check, the stack again lacking the popped condition. -/
theorem C3_out_of_range_jump (vm : VM) (b1 b2 : Fin 256)
    (h1 : vm.chunk[vm.current]? = some b1)
    (h2 : vm.chunk[vm.current + 1]? = some b2)
    (hout : combine_bytes b1 b2 ≥ vm.chunk.length) :
    vm.goto = StepRes.err VMError.IllegalGoto { vm with current := vm.current + 2 } ∧
    (∀ rest, vm.stack = Value.Bool true :: rest →
      vm.goto_if =
        StepRes.err VMError.IllegalGoto { vm with stack := rest, current := vm.current + 2 }) ∧
    (∀ rest, vm.stack = Value.Bool false :: rest →
      vm.goto_if = StepRes.ok () { vm with stack := rest, current := vm.current + 2 }) := by
  refine ⟨?_, ?_, ?_⟩
  · rw [goto_eq vm b1 b2 h1 h2, if_pos hout]
  · intro rest hs
    rw [goto_if_eq vm true rest b1 b2 hs h1 h2, if_pos rfl, if_pos hout]
  · intro rest hs
    rw [goto_if_eq vm false rest b1 b2 hs h1 h2]
    rfl

theorem C3_out_of_range_jump_witness :
    VM.goto wC3c = StepRes.err VMError.IllegalGoto { wC3c with current := 2 } ∧
    VM.goto_if wC3a = StepRes.err VMError.IllegalGoto { wC3a with stack := [], current := 2 } ∧
    VM.goto_if wC3b = StepRes.ok () { wC3b with stack := [], current := 2 } := by
  refine ⟨(C3_out_of_range_jump wC3c 255 255 rfl rfl (by decide)).1, ?_, ?_⟩
  · exact (C3_out_of_range_jump wC3a 255 255 rfl rfl (by decide)).2.1 [] rfl
  · exact (C3_out_of_range_jump wC3b 255 255 rfl rfl (by decide)).2.2 [] rfl

/-- C7: the claim says a zero divisor yields a typed runtime error and
never a panic.  Counterexample: executing `IDiv` with divisor 0 traps —
the source computes `x / y` with Rust's `/`, which panics on a zero
divisor instead of returning a `VMError`.  (The §4.3 wording of the spec,
"undefined (implementation may trap)", matches the code; the claim's
§7/§8 wording does not.) -/
theorem C7_div_by_zero_counterexample :
    VM.execute 1 exC7 = StepRes.trap { exC7 with stack := [], current := 1 } := by
  decide

/-- C7 (amended): the integer-divide opcode pops two integers `x` (top)
and `y`; when the divisor `y` is 0 the interpreter panics (a Rust
divide-by-zero trap, aborting the run rather than returning a typed,
recoverable error); when `y` is nonzero it pushes the quotient truncated
toward zero — in neither case is a wrapped value or a NaN produced. -/
theorem C7_i_div_semantics (vm : VM) (x y : Int) (rest : List Value)
    (hs : vm.stack = Value.Integer x :: Value.Integer y :: rest) :
    vm.i_div =
      if y = 0 then StepRes.trap { vm with stack := rest }
      else VM.push { vm with stack := rest } (Value.Integer (Int.tdiv x y)) := by
  unfold VM.i_div
  rw [expect_integer_cons vm x (Value.Integer y :: rest) hs, StepRes.bind_ok,
    expect_integer_cons { vm with stack := Value.Integer y :: rest } y rest rfl,
    StepRes.bind_ok]

theorem C7_i_div_witness :
    VM.i_div wC7 = StepRes.trap { wC7 with stack := [Value.Integer 9] } := by
  rw [C7_i_div_semantics wC7 5 0 [Value.Integer 9] rfl]
  decide

/-- C8: a push onto an operand stack already holding MAX_STACK_SIZE = 256
entries fails with StackOverflow and leaves the interpreter state (stack
included) exactly unchanged; a push onto a smaller stack succeeds and
prepends the value at the top. -/
theorem C8_push_overflow (vm : VM) (v : Value) :
    (vm.stack.length = 256 → vm.push v = StepRes.err VMError.StackOverflow vm) ∧
    (vm.stack.length < 256 → vm.push v = StepRes.ok () { vm with stack := v :: vm.stack }) := by
  constructor
  · intro h
    unfold VM.push
    rw [if_pos (show vm.stack.length ≥ MAX_STACK_SIZE from Nat.le_of_eq h.symm)]
  · intro h
    unfold VM.push
    rw [if_neg (show ¬vm.stack.length ≥ MAX_STACK_SIZE from Nat.not_le.mpr h)]

set_option maxRecDepth 4000 in
theorem C8_push_overflow_witness :
    VM.push wC8full (Value.Integer 1) = StepRes.err VMError.StackOverflow wC8full ∧
    VM.push wC8small (Value.Integer 1) =
      StepRes.ok () { wC8small with stack := [Value.Integer 1, Value.Integer 4] } := by
  constructor
  · exact (C8_push_overflow wC8full (Value.Integer 1)).1 (by decide)
  · exact (C8_push_overflow wC8small (Value.Integer 1)).2 (by decide)

/-- Unfolding of the pop loop of VM::call: with at least `n` values on
the stack it pops the first `n` (in pop order, so the most recently
pushed value comes first) and leaves the rest. -/
theorem popN_spec (n : Nat) (vm : VM) (h : n ≤ vm.stack.length) :
    VM.popN n vm = StepRes.ok (vm.stack.take n) { vm with stack := vm.stack.drop n } := by
  induction n generalizing vm with
  | zero => rfl
  | succ n ih =>
    match hst : vm.stack with
    | [] =>
      rw [hst] at h
      exact absurd h (by simp)
    | v :: rest =>
      unfold VM.popN
      rw [pop_cons vm v rest hst, StepRes.bind_ok,
        ih { vm with stack := rest } (by rw [hst] at h; simpa using h),
        StepRes.bind_ok]
      rfl

/-- Unfolding of VM::call once the operand byte and the function are
known and the caller's stack covers the arity: the child interpreter is
the caller's clone with instruction pointer 0, the callee's chunk, the
caller's locals installed as globals, and the popped arguments as locals
— while its operand stack is the caller's ENTIRE stack at the moment of
the call (the clone is taken before the arguments are popped, so the
arguments are still in the copy).  `callFinish` then runs
`fork.execute_all()?; self.push(fork.pop()?)` against the caller state
with the arguments removed. -/
theorem call_unfold (fuel : Nat) (vm : VM) (b : Fin 256) (func : Function)
    (hb : vm.chunk[vm.current]? = some b)
    (hf : vm.functions[b.val]? = some func)
    (hargs : func.argc ≤ vm.stack.length) :
    VM.call fuel vm =
      callFinish
        (VM.execute_all fuel
          { vm with
            current := 0
            chunk := func.chunk
            globals := vm.locals
            locals := vm.stack.take func.argc })
        { vm with stack := vm.stack.drop func.argc, current := vm.current + 1 } := by
  have hiota :
      VM.call fuel vm =
        StepRes.bind (VM.popN func.argc { vm with current := vm.current + 1 })
          (fun params vmP =>
            callFinish
              (VM.execute_all fuel
                { vm with
                  current := 0
                  chunk := func.chunk
                  globals := vm.locals
                  locals := params })
              vmP) := by
    unfold VM.call VM.callWith
    rw [advance_ok vm b hb, StepRes.bind_ok]
    have hf2 : ({ vm with current := vm.current + 1 } : VM).functions[b.val]? = some func := hf
    rw [hf2]
  rw [hiota, popN_spec func.argc { vm with current := vm.current + 1 } hargs, StepRes.bind_ok]

/-- C9: the child interpreter of a Call starts on a COPY of the caller's
entire operand stack at the moment of the call: the equation below runs
the child (`VM.execute_all fuel`) on a state whose `stack` field is the
caller's full `vm.stack`, arguments included, even though the arguments
have been popped from the caller (whose surviving stack is
`vm.stack.drop func.argc`).  `self.clone()` happens before the argument
pops, so the copy keeps them; the callee can therefore pop values it
never pushed, depending on the caller's stack contents. -/
theorem C9_call_forks_whole_stack (fuel : Nat) (vm : VM) (b : Fin 256) (func : Function)
    (hb : vm.chunk[vm.current]? = some b)
    (hf : vm.functions[b.val]? = some func)
    (hargs : func.argc ≤ vm.stack.length) :
    VM.call fuel vm =
      callFinish
        (VM.execute_all fuel
          { stack := vm.stack
            constants := vm.constants
            locals := vm.stack.take func.argc
            globals := vm.locals
            functions := vm.functions
            chunk := func.chunk
            current := 0 })
        { vm with stack := vm.stack.drop func.argc, current := vm.current + 1 } :=
  call_unfold fuel vm b func hb hf hargs

theorem C9_call_forks_whole_stack_witness :
    VM.call 1 wC9 = StepRes.ok () { wC9 with stack := [Value.Integer 7], current := 1 } := by
  rw [C9_call_forks_whole_stack 1 wC9 0 { argc := 1, chunk := [] } rfl rfl (by decide)]
  decide

set_option maxRecDepth 8000 in
/-- C6: the claim asserts that a successfully halting child with a
non-empty stack always gets its top value pushed onto the caller's stack.
Counterexample: an arity-0 call made while the caller's stack is full —
the child (whose stack is the caller's full copy) halts successfully with
a non-empty stack, but `self.push` then fails, so the call returns
StackOverflow and no result is pushed. -/
theorem C6_call_result_overflow_counterexample :
    VM.execute 1 exC6 = StepRes.err VMError.StackOverflow { exC6 with current := 2 } := by
  decide

/-- C6 (amended): a Call of a function of arity `k` with at least `k`
values on the caller's stack runs a child that starts at instruction
pointer 0 on the callee's stream, with the `k` popped values as locals
0..k-1 (local 0 the most recently pushed) and the caller's locals as its
globals.  On the child's successful halt with value `v` on top of its
stack, `v` is pushed onto the caller's stack provided the caller's stack
(after the `k` argument pops) is below the 256-entry cap — automatic
whenever `k ≥ 1`; if `k = 0` and the caller's stack is already full, the
call instead fails with StackOverflow.  A child that halts with an empty
stack yields StackEmpty, and a child error propagates to the caller
unchanged; in every failure case no result is pushed and the caller keeps
its post-pop stack. -/
theorem C6_call_semantics (fuel : Nat) (vm : VM) (b : Fin 256) (func : Function)
    (hb : vm.chunk[vm.current]? = some b)
    (hf : vm.functions[b.val]? = some func)
    (hargs : func.argc ≤ vm.stack.length) :
    let fork : VM :=
      { vm with
        current := 0
        chunk := func.chunk
        globals := vm.locals
        locals := vm.stack.take func.argc }
    let vmP : VM := { vm with stack := vm.stack.drop func.argc, current := vm.current + 1 }
    fork.locals = vm.stack.take func.argc ∧ fork.globals = vm.locals ∧
    fork.chunk = func.chunk ∧ fork.current = 0 ∧
    (∀ fork1 : VM, ∀ v : Value, ∀ s : List Value,
      VM.execute_all fuel fork = StepRes.ok () fork1 → fork1.stack = v :: s →
        (vmP.stack.length < 256 →
          VM.call fuel vm = StepRes.ok () { vmP with stack := v :: vmP.stack }) ∧
        (vmP.stack.length ≥ 256 →
          VM.call fuel vm = StepRes.err VMError.StackOverflow vmP)) ∧
    (∀ fork1 : VM, VM.execute_all fuel fork = StepRes.ok () fork1 → fork1.stack = [] →
      VM.call fuel vm = StepRes.err VMError.StackEmpty vmP) ∧
    (∀ e : VMError, ∀ fork1 : VM, VM.execute_all fuel fork = StepRes.err e fork1 →
      VM.call fuel vm = StepRes.err e vmP) := by
  intro fork vmP
  have hcall := call_unfold fuel vm b func hb hf hargs
  refine ⟨rfl, rfl, rfl, rfl, ?_, ?_, ?_⟩
  · intro fork1 v s hok hstk
    have hpop := pop_cons fork1 v s hstk
    constructor
    · intro hroom
      rw [hcall, hok]
      simp only [callFinish, hpop]
      unfold VM.push
      rw [if_neg (show ¬vmP.stack.length ≥ MAX_STACK_SIZE from Nat.not_le.mpr hroom)]
    · intro hfull
      rw [hcall, hok]
      simp only [callFinish, hpop]
      unfold VM.push
      rw [if_pos (show vmP.stack.length ≥ MAX_STACK_SIZE from hfull)]
  · intro fork1 hok hstk
    rw [hcall, hok]
    simp only [callFinish, VM.pop, hstk]
  · intro e fork1 herr
    rw [hcall, herr]
    rfl

theorem C6_call_semantics_witness :
    VM.call 1 wC6 = StepRes.ok () { wC6 with stack := [Value.Integer 7], current := 1 } := by
  have h := (C6_call_semantics 1 wC6 0 { argc := 1, chunk := [] } rfl rfl (by decide)).2.2.2.2.1
  have h2 := h
    { stack := [Value.Integer 7], constants := [], locals := [Value.Integer 7],
      globals := [Value.Integer 3], functions := [{ argc := 1, chunk := [] }],
      chunk := [], current := 0 }
    (Value.Integer 7) [] (by decide) rfl
  exact h2.1 (by decide)

theorem framePreserved_trans {a b c : VM} (h1 : framePreserved a b) (h2 : framePreserved b c) :
    framePreserved a c :=
  ⟨h2.1.trans h1.1, h2.2.1.trans h1.2.1, h2.2.2.1.trans h1.2.2.1, h2.2.2.2.trans h1.2.2.2⟩

theorem preservesFrame_mono {α : Type} {r : StepRes α} {vm vmI : VM}
    (h : framePreserved vm vmI) (hr : preservesFrame r vmI) : preservesFrame r vm := by
  cases r with
  | ok a vmN => exact framePreserved_trans h hr
  | err e vmN => exact framePreserved_trans h hr
  | trap vmN => exact framePreserved_trans h hr
  | timeout => trivial

theorem preservesFrame_bind {α β : Type} {r : StepRes α} {f : α → VM → StepRes β} {vm : VM}
    (hr : preservesFrame r vm) (hf : ∀ a vmI, preservesFrame (f a vmI) vmI) :
    preservesFrame (StepRes.bind r f) vm := by
  cases r with
  | ok a vmI => exact preservesFrame_mono hr (hf a vmI)
  | err e vmI => exact hr
  | trap vmI => exact hr
  | timeout => trivial

theorem push_preservesFrame (vm : VM) (v : Value) : preservesFrame (vm.push v) vm := by
  unfold VM.push
  split
  · exact ⟨rfl, rfl, rfl, rfl⟩
  · exact ⟨rfl, rfl, rfl, rfl⟩

theorem pop_preservesFrame (vm : VM) : preservesFrame vm.pop vm := by
  unfold VM.pop
  split
  · exact ⟨rfl, rfl, rfl, rfl⟩
  · exact ⟨rfl, rfl, rfl, rfl⟩

theorem advance_preservesFrame (vm : VM) : preservesFrame vm.advance vm := by
  unfold VM.advance
  split
  · exact ⟨rfl, rfl, rfl, rfl⟩
  · exact ⟨rfl, rfl, rfl, rfl⟩

theorem expect_integer_preservesFrame (vm : VM) : preservesFrame vm.expect_integer vm := by
  unfold VM.expect_integer
  refine preservesFrame_bind (pop_preservesFrame vm) ?_
  intro v vmI
  cases v <;> exact ⟨rfl, rfl, rfl, rfl⟩

theorem expect_bool_preservesFrame (vm : VM) : preservesFrame vm.expect_bool vm := by
  unfold VM.expect_bool
  refine preservesFrame_bind (pop_preservesFrame vm) ?_
  intro v vmI
  cases v <;> exact ⟨rfl, rfl, rfl, rfl⟩

theorem ret_preservesFrame (vm : VM) : preservesFrame vm.ret vm :=
  ⟨rfl, rfl, rfl, rfl⟩

theorem goto_preservesFrame (vm : VM) : preservesFrame vm.goto vm := by
  unfold VM.goto
  refine preservesFrame_bind (advance_preservesFrame vm) ?_
  intro b1 vm1
  refine preservesFrame_bind (advance_preservesFrame vm1) ?_
  intro b2 vm2
  dsimp only
  split
  · exact ⟨rfl, rfl, rfl, rfl⟩
  · exact ⟨rfl, rfl, rfl, rfl⟩

theorem goto_if_preservesFrame (vm : VM) : preservesFrame vm.goto_if vm := by
  unfold VM.goto_if
  refine preservesFrame_bind (expect_bool_preservesFrame vm) ?_
  intro p vm1
  refine preservesFrame_bind (advance_preservesFrame vm1) ?_
  intro b1 vm2
  refine preservesFrame_bind (advance_preservesFrame vm2) ?_
  intro b2 vm3
  dsimp only
  split
  · split
    · exact ⟨rfl, rfl, rfl, rfl⟩
    · exact ⟨rfl, rfl, rfl, rfl⟩
  · exact ⟨rfl, rfl, rfl, rfl⟩

theorem load_preservesFrame (vm : VM) : preservesFrame vm.load vm := by
  unfold VM.load
  refine preservesFrame_bind (advance_preservesFrame vm) ?_
  intro b vm1
  exact push_preservesFrame vm1 _

theorem load2_preservesFrame (vm : VM) : preservesFrame vm.load2 vm := by
  unfold VM.load2
  refine preservesFrame_bind (advance_preservesFrame vm) ?_
  intro b1 vm1
  refine preservesFrame_bind (advance_preservesFrame vm1) ?_
  intro b2 vm2
  exact push_preservesFrame vm2 _

theorem load_const_preservesFrame (vm : VM) : preservesFrame vm.load_const vm := by
  unfold VM.load_const
  refine preservesFrame_bind (advance_preservesFrame vm) ?_
  intro b vm1
  split
  · exact ⟨rfl, rfl, rfl, rfl⟩
  · exact push_preservesFrame vm1 _

theorem load_local_preservesFrame (vm : VM) : preservesFrame vm.load_local vm := by
  unfold VM.load_local
  refine preservesFrame_bind (advance_preservesFrame vm) ?_
  intro b1 vm1
  refine preservesFrame_bind (advance_preservesFrame vm1) ?_
  intro b2 vm2
  split
  · exact ⟨rfl, rfl, rfl, rfl⟩
  · exact push_preservesFrame vm2 _

theorem store_local_preservesFrame (vm : VM) : preservesFrame vm.store_local vm := by
  unfold VM.store_local
  refine preservesFrame_bind (advance_preservesFrame vm) ?_
  intro b1 vm1
  refine preservesFrame_bind (advance_preservesFrame vm1) ?_
  intro b2 vm2
  dsimp only
  refine preservesFrame_bind (pop_preservesFrame vm2) ?_
  intro v vm3
  split
  · exact ⟨rfl, rfl, rfl, rfl⟩
  · exact ⟨rfl, rfl, rfl, rfl⟩

theorem load_global_preservesFrame (vm : VM) : preservesFrame vm.load_global vm := by
  unfold VM.load_global
  refine preservesFrame_bind (advance_preservesFrame vm) ?_
  intro b1 vm1
  refine preservesFrame_bind (advance_preservesFrame vm1) ?_
  intro b2 vm2
  split
  · exact ⟨rfl, rfl, rfl, rfl⟩
  · exact push_preservesFrame vm2 _

theorem i_add_preservesFrame (vm : VM) : preservesFrame vm.i_add vm := by
  unfold VM.i_add
  refine preservesFrame_bind (expect_integer_preservesFrame vm) ?_
  intro x vm1
  refine preservesFrame_bind (expect_integer_preservesFrame vm1) ?_
  intro y vm2
  exact push_preservesFrame vm2 _

theorem i_sub_preservesFrame (vm : VM) : preservesFrame vm.i_sub vm := by
  unfold VM.i_sub
  refine preservesFrame_bind (expect_integer_preservesFrame vm) ?_
  intro x vm1
  refine preservesFrame_bind (expect_integer_preservesFrame vm1) ?_
  intro y vm2
  exact push_preservesFrame vm2 _

theorem i_mul_preservesFrame (vm : VM) : preservesFrame vm.i_mul vm := by
  unfold VM.i_mul
  refine preservesFrame_bind (expect_integer_preservesFrame vm) ?_
  intro x vm1
  refine preservesFrame_bind (expect_integer_preservesFrame vm1) ?_
  intro y vm2
  exact push_preservesFrame vm2 _

theorem i_div_preservesFrame (vm : VM) : preservesFrame vm.i_div vm := by
  unfold VM.i_div
  refine preservesFrame_bind (expect_integer_preservesFrame vm) ?_
  intro x vm1
  refine preservesFrame_bind (expect_integer_preservesFrame vm1) ?_
  intro y vm2
  split
  · exact ⟨rfl, rfl, rfl, rfl⟩
  · exact push_preservesFrame vm2 _

theorem i_neg_preservesFrame (vm : VM) : preservesFrame vm.i_neg vm := by
  unfold VM.i_neg
  refine preservesFrame_bind (expect_integer_preservesFrame vm) ?_
  intro x vm1
  exact push_preservesFrame vm1 _

theorem i_cmpeq_preservesFrame (vm : VM) : preservesFrame vm.i_cmpeq vm := by
  unfold VM.i_cmpeq
  refine preservesFrame_bind (expect_integer_preservesFrame vm) ?_
  intro x vm1
  refine preservesFrame_bind (expect_integer_preservesFrame vm1) ?_
  intro y vm2
  exact push_preservesFrame vm2 _

theorem i_cmpgt_preservesFrame (vm : VM) : preservesFrame vm.i_cmpgt vm := by
  unfold VM.i_cmpgt
  refine preservesFrame_bind (expect_integer_preservesFrame vm) ?_
  intro x vm1
  refine preservesFrame_bind (expect_integer_preservesFrame vm1) ?_
  intro y vm2
  exact push_preservesFrame vm2 _

theorem i_cmpge_preservesFrame (vm : VM) : preservesFrame vm.i_cmpge vm := by
  unfold VM.i_cmpge
  refine preservesFrame_bind (expect_integer_preservesFrame vm) ?_
  intro x vm1
  refine preservesFrame_bind (expect_integer_preservesFrame vm1) ?_
  intro y vm2
  exact push_preservesFrame vm2 _

theorem i_cmplt_preservesFrame (vm : VM) : preservesFrame vm.i_cmplt vm := by
  unfold VM.i_cmplt
  refine preservesFrame_bind (expect_integer_preservesFrame vm) ?_
  intro x vm1
  refine preservesFrame_bind (expect_integer_preservesFrame vm1) ?_
  intro y vm2
  exact push_preservesFrame vm2 _

theorem i_cmple_preservesFrame (vm : VM) : preservesFrame vm.i_cmple vm := by
  unfold VM.i_cmple
  refine preservesFrame_bind (expect_integer_preservesFrame vm) ?_
  intro x vm1
  refine preservesFrame_bind (expect_integer_preservesFrame vm1) ?_
  intro y vm2
  exact push_preservesFrame vm2 _

theorem popN_preservesFrame (n : Nat) (vm : VM) : preservesFrame (VM.popN n vm) vm := by
  induction n generalizing vm with
  | zero => exact ⟨rfl, rfl, rfl, rfl⟩
  | succ n ih =>
    unfold VM.popN
    refine preservesFrame_bind (pop_preservesFrame vm) ?_
    intro v vm1
    refine preservesFrame_bind (ih vm1) ?_
    intro vs vm2
    exact ⟨rfl, rfl, rfl, rfl⟩

/-- The result push of a call only touches the caller's stack: whatever
the forked child did, the caller-visible state of `callFinish` preserves
the caller's frame. -/
theorem callFinish_preservesFrame (r : StepRes Unit) (vm : VM) :
    preservesFrame (callFinish r vm) vm := by
  unfold callFinish
  split
  · split
    · exact push_preservesFrame _ _
    · exact ⟨rfl, rfl, rfl, rfl⟩
    · exact ⟨rfl, rfl, rfl, rfl⟩
    · trivial
  · exact ⟨rfl, rfl, rfl, rfl⟩
  · exact ⟨rfl, rfl, rfl, rfl⟩
  · trivial

theorem callWith_preservesFrame (runAll : VM → StepRes Unit) (vm : VM) :
    preservesFrame (VM.callWith runAll vm) vm := by
  unfold VM.callWith
  refine preservesFrame_bind (advance_preservesFrame vm) ?_
  intro b vm1
  split
  · exact ⟨rfl, rfl, rfl, rfl⟩
  · dsimp only
    refine preservesFrame_bind (popN_preservesFrame _ _) ?_
    intro params vm2
    exact callFinish_preservesFrame _ _

theorem executeWith_preservesFrame (runAll : VM → StepRes Unit) (vm : VM) :
    preservesFrame (VM.executeWith runAll vm) vm := by
  unfold VM.executeWith
  refine preservesFrame_bind (advance_preservesFrame vm) ?_
  intro b vm1
  split
  · exact ⟨rfl, rfl, rfl, rfl⟩
  · split <;>
      first
        | exact ret_preservesFrame _
        | exact goto_preservesFrame _
        | exact goto_if_preservesFrame _
        | exact load_preservesFrame _
        | exact load2_preservesFrame _
        | exact load_const_preservesFrame _
        | exact load_local_preservesFrame _
        | exact store_local_preservesFrame _
        | exact load_global_preservesFrame _
        | exact callWith_preservesFrame _ _
        | exact i_add_preservesFrame _
        | exact i_sub_preservesFrame _
        | exact i_mul_preservesFrame _
        | exact i_div_preservesFrame _
        | exact i_neg_preservesFrame _
        | exact i_cmpeq_preservesFrame _
        | exact i_cmpgt_preservesFrame _
        | exact i_cmpge_preservesFrame _
        | exact i_cmplt_preservesFrame _
        | exact i_cmple_preservesFrame _

/-- C10: a single dispatch step (VM::execute, every opcode, every
starting state, every fuel) leaves the constant pool, the function table,
the captured/global slots and the instruction stream of the interpreter
instance unchanged in every caller-visible outcome — only the operand
stack, the locals and the instruction pointer are ever written.  In
particular a Call mutates only its forked child: the caller's frame
fields survive untouched. -/
theorem C10_execute_preserves_frame (fuel : Nat) (vm : VM) :
    preservesFrame (VM.execute fuel vm) vm :=
  executeWith_preservesFrame (fun vmC => VM.execute_all fuel vmC) vm

/-- C4: the claim says mark checks the current color, stops at
already-Reachable objects, and hence terminates on every object graph
including cyclic ones.  The source's HeapObject::mark has NO such check:
it colors the object and unconditionally recurses into every pointer
field.  On the smallest cyclic graph — one object whose single field
points to itself — the recursion therefore never completes: for EVERY
fuel bound and every starting color, the modelled mark exhausts its fuel
(returns `none`), i.e. the source's recursion does not terminate.  (The
spec itself flags this in §9: "The original source omits this check;
treat it as a defect to fix".) -/
theorem C4_mark_diverges_on_cycle (fuel : Nat) (c : GC.Color) :
    GC.markObj fuel 0 [GC.selfLoopObj c] = none := by
  induction fuel generalizing c with
  | zero => rfl
  | succ fuel ih =>
    have key : GC.markObj (fuel + 1) 0 [GC.selfLoopObj c] =
        (match GC.markObj fuel 0 [GC.selfLoopObj GC.Color.Reachable] with
          | none => none
          | some store2 =>
            GC.markFieldsWith (fun j s => GC.markObj fuel j s) [] store2) := rfl
    rw [key, ih GC.Color.Reachable]

namespace GC

/-- The sweep walk keeps exactly the Reachable objects (each reset to
Unmarked, in order) and counts one freed object per non-Reachable node. -/
theorem sweepWalk_spec (l : List HeapObject) :
    (sweepWalk l).1 = (l.filter HeapObject.reachable).map HeapObject.unmark ∧
    (sweepWalk l).2 = l.length - (l.filter HeapObject.reachable).length := by
  induction l with
  | nil => exact ⟨rfl, rfl⟩
  | cons o rest ih =>
    by_cases h : o.reachable
    · constructor
      · simp [sweepWalk, h, List.filter_cons_of_pos h, ih.1]
      · simp [sweepWalk, h, List.filter_cons_of_pos h, ih.2, Nat.succ_sub_succ]
    · constructor
      · simp [sweepWalk, h, List.filter_cons_of_neg h, ih.1]
      · have hle := List.length_filter_le HeapObject.reachable rest
        simp [sweepWalk, h, List.filter_cons_of_neg h, ih.2]
        omega

end GC

/-- C5: the claim states that after the walk the new threshold never
falls below a small positive floor.  Counterexample: sweeping a heap
whose single object is Unmarked frees it and sets
`threshold = size * 2 = 0` — there is no floor at all in the source, so
no positive lower bound holds. -/
theorem C5_sweep_zero_threshold_counterexample :
    GC.Heap.sweep GC.exC5 = { objects := [], size := 0, threshold := 0 } := rfl

/-- C5 (amended): sweep keeps exactly the objects colored Reachable
(each reset to Unmarked, list order preserved), frees every Unmarked
object while decrementing the live count once per freed object (so the
new count is the number of survivors), and afterwards sets the threshold
to exactly twice the surviving live count — with NO lower floor: the
threshold is 0 when nothing survives. -/
theorem C5_sweep_spec (h : GC.Heap) (hs : h.size = h.objects.length) :
    h.sweep.objects = (h.objects.filter GC.HeapObject.reachable).map GC.HeapObject.unmark ∧
    h.sweep.size = (h.objects.filter GC.HeapObject.reachable).length ∧
    h.sweep.threshold = 2 * h.sweep.size := by
  have hw := GC.sweepWalk_spec h.objects
  have hle := List.length_filter_le GC.HeapObject.reachable h.objects
  refine ⟨hw.1, ?_, ?_⟩
  · show h.size - (GC.sweepWalk h.objects).2 = _
    rw [hw.2, hs]
    omega
  · show (h.size - (GC.sweepWalk h.objects).2) * 2 = 2 * (h.size - (GC.sweepWalk h.objects).2)
    exact Nat.mul_comm _ 2

theorem C5_sweep_spec_witness :
    (GC.Heap.sweep GC.wC5).objects =
      ((GC.wC5.objects.filter GC.HeapObject.reachable).map GC.HeapObject.unmark) ∧
    (GC.Heap.sweep GC.wC5).size = (GC.wC5.objects.filter GC.HeapObject.reachable).length ∧
    (GC.Heap.sweep GC.wC5).threshold = 2 * (GC.Heap.sweep GC.wC5).size :=
  C5_sweep_spec GC.wC5 rfl

end Andrea
